import Mathlib

/-!
Shallow embedding of the Fourier-Transform-Mixer core
(src/models/image_model.py, src/engine/mixer_engine.py,
src/engine/async_job_manager.py, src/utils/region_handler.py,
src/utils/unit_unificator.py, src/models/global_session_state.py),
together with theorems settling the frozen claims about the spec.

Numpy float64 arrays are modelled as matrices over the real numbers
(complex128 over the complex numbers); the machine floating-point
rounding itself is not modelled, only the exact arithmetic the source
expresses.  A 2-D numpy array is a `PyArr`: a `(rows, cols)` pair plus
a total entry function (entries outside the index range are junk that
no theorem depends on).
-/

namespace FTMixer

/-- A 2-D numpy array of element type `α`: shape plus entry function. -/
structure PyArr (α : Type) where
  rows : ℕ
  cols : ℕ
  entries : ℕ → ℕ → α

/-- The `(rows, cols)` shape tuple of an array (`ndarray.shape`). -/
def PyArr.shape {α : Type} (m : PyArr α) : ℕ × ℕ := (m.rows, m.cols)

/-- Elementwise map preserving the shape. -/
def pyMap {α β : Type} (f : α → β) (m : PyArr α) : PyArr β :=
  ⟨m.rows, m.cols, fun i j => f (m.entries i j)⟩

/-- Constant array of a given shape (`np.zeros` / `np.ones` and friends). -/
def pyConst {α : Type} (r c : ℕ) (x : α) : PyArr α := ⟨r, c, fun _ _ => x⟩

/-- Junk array used as the default of out-of-range list lookups that the
source never performs. -/
def pyZero : PyArr ℝ := pyConst 0 0 0

/-- Elementwise sum; numpy `+=` on same-shape arrays (the mixer only ever
adds same-shape arrays, after size unification). -/
def matAdd (a b : PyArr ℝ) : PyArr ℝ :=
  ⟨a.rows, a.cols, fun i j => a.entries i j + b.entries i j⟩

/-- Scalar multiple, numpy `array * scalar`. -/
def matScale (w : ℝ) (a : PyArr ℝ) : PyArr ℝ :=
  ⟨a.rows, a.cols, fun i j => w * a.entries i j⟩

/-- Elementwise (Hadamard) product, numpy `array *= mask`. -/
def hadamard (a mask : PyArr ℝ) : PyArr ℝ :=
  ⟨a.rows, a.cols, fun i j => a.entries i j * mask.entries i j⟩

/-- All in-range index pairs of an `h × w` array, row major. -/
def idxList (h w : ℕ) : List (ℕ × ℕ) :=
  (List.range h).flatMap fun i => (List.range w).map fun j => (i, j)

/-- `ndarray.min()`: minimum over the in-range entries (the fold is seeded
with entry `(0,0)`, which is in range whenever the array is non-empty;
numpy raises on an empty array, a case the source never reaches). -/
noncomputable def matMin (m : PyArr ℝ) : ℝ :=
  ((idxList m.rows m.cols).map fun p => m.entries p.1 p.2).foldr min (m.entries 0 0)

/-- `ndarray.max()`: maximum over the in-range entries. -/
noncomputable def matMax (m : PyArr ℝ) : ℝ :=
  ((idxList m.rows m.cols).map fun p => m.entries p.1 p.2).foldr max (m.entries 0 0)

/-! ## Discrete Fourier transform (numpy.fft) -/

/-- `np.fft.fft2`: `X[u,v] = Σ_a Σ_b x[a,b] · exp(-2πi(ua/h + vb/w))`. -/
noncomputable def fft2 (m : PyArr ℂ) : PyArr ℂ :=
  ⟨m.rows, m.cols, fun u v =>
    ∑ a ∈ Finset.range m.rows, ∑ b ∈ Finset.range m.cols,
      m.entries a b *
        Complex.exp (-2 * Real.pi * Complex.I *
          ((u : ℂ) * a / m.rows + (v : ℂ) * b / m.cols))⟩

/-- `np.fft.ifft2`: `x[a,b] = (1/(hw)) Σ_u Σ_v X[u,v] · exp(2πi(ua/h + vb/w))`. -/
noncomputable def ifft2 (m : PyArr ℂ) : PyArr ℂ :=
  ⟨m.rows, m.cols, fun a b =>
    (1 / ((m.rows : ℂ) * m.cols)) *
      ∑ u ∈ Finset.range m.rows, ∑ v ∈ Finset.range m.cols,
        m.entries u v *
          Complex.exp (2 * Real.pi * Complex.I *
            ((u : ℂ) * a / m.rows + (v : ℂ) * b / m.cols))⟩

/-- `np.fft.fftshift` on both axes: `roll` by `n / 2` along each axis, so
`y[i] = x[(i + (n - n/2)) mod n]`. -/
def fftshift2 {α : Type} (m : PyArr α) : PyArr α :=
  ⟨m.rows, m.cols, fun i j =>
    m.entries ((i + (m.rows - m.rows / 2)) % m.rows)
      ((j + (m.cols - m.cols / 2)) % m.cols)⟩

/-- `np.fft.ifftshift` on both axes: `roll` by `-(n / 2)` along each axis, so
`y[i] = x[(i + n/2) mod n]`. -/
def ifftshift2 {α : Type} (m : PyArr α) : PyArr α :=
  ⟨m.rows, m.cols, fun i j =>
    m.entries ((i + m.rows / 2) % m.rows) ((j + m.cols / 2) % m.cols)⟩

/-! ## ImageModel (src/models/image_model.py) -/

/-- The five component kinds accepted by `ImageModel.get_data`. -/
inductive CompKind
  | raw
  | magnitude
  | phase
  | real
  | imag
deriving DecidableEq, Repr

/-- Mirror of `ImageModel.__init__` field state: raw pixels, cached centered
transform, `self.shape` (a tuple, `()` until a load), and the four derived
caches.  The per-instance `threading.Lock` serialises every operation, so
the sequential state-passing semantics below is the behaviour the source
guarantees. -/
structure ImageModel where
  rawPixels : Option (PyArr ℝ)
  complexArr : Option (PyArr ℂ)
  shape : List ℕ
  cachedMagnitude : Option (PyArr ℝ)
  cachedPhase : Option (PyArr ℝ)
  cachedReal : Option (PyArr ℝ)
  cachedImag : Option (PyArr ℝ)

/-- `ImageModel()`: everything unset, `shape = ()`. -/
def ImageModel.init : ImageModel := ⟨none, none, [], none, none, none, none⟩

/-- `ImageModel._reset_cache`: clears the transform and all four caches. -/
def ImageModel.resetCache (s : ImageModel) : ImageModel :=
  { s with complexArr := none, cachedMagnitude := none, cachedPhase := none,
           cachedReal := none, cachedImag := none }

/-- `ImageModel.load_from_contents`: the base64 + PIL decoding is an external
collaborator, so its outcome is the `Option (PyArr ℝ)` argument (the decoded
grayscale float64 matrix, or `none` when decoding raised).  On failure the
exception is caught and printed before the lock is taken, leaving the state
unchanged; on success raw pixels and shape are replaced and all caches are
reset inside the same lock. -/
def ImageModel.loadFromContents (decoded : Option (PyArr ℝ)) (s : ImageModel) :
    ImageModel :=
  match decoded with
  | none => s
  | some m =>
      ({ s with rawPixels := some m, shape := [m.rows, m.cols] }).resetCache

/-- numpy float64 → uint8 cast used by `resize` (`astype(np.uint8)`):
C-style truncation toward zero followed by a wrap modulo 256. -/
noncomputable def truncTowardZero (x : ℝ) : ℤ := if 0 ≤ x then ⌊x⌋ else ⌈x⌉

/-- `astype(np.uint8)` applied elementwise to a float64 array. -/
noncomputable def castUint8 (m : PyArr ℝ) : PyArr ℝ :=
  pyMap (fun x => ((truncTowardZero x % 256 : ℤ) : ℝ)) m

/-- `ImageModel.resize`: no-op when no raw pixels are set; otherwise the raw
matrix is cast to uint8, resampled by PIL (`Image.resize(..., LANCZOS)`, an
external collaborator abstracted as the `resample` argument, which receives
the quantized matrix and the `(height, width)` target), stored back as
float64, the shape is set to the target, and all caches are reset — all
inside the instance lock. -/
noncomputable def ImageModel.resize
    (resample : PyArr ℝ → ℕ × ℕ → PyArr ℝ) (targetShape : ℕ × ℕ)
    (s : ImageModel) : ImageModel :=
  match s.rawPixels with
  | none => s
  | some r =>
      ({ s with rawPixels := some (resample (castUint8 r) targetShape),
                shape := [targetShape.1, targetShape.2] }).resetCache

/-- Python exceptions that cross the boundaries modelled here. -/
inductive PyExc
  | valueError (msg : String)
  | attributeError (cls attr : String)
deriving DecidableEq, Repr

/-- `ImageModel._compute_fft`: the DC-centered transform
`fftshift(fft2(raw))`.  Only ever called with raw pixels present. -/
noncomputable def ImageModel.computeFft (s : ImageModel) : ImageModel :=
  match s.rawPixels with
  | none => s
  | some r =>
      { s with complexArr := some (fftshift2 (fft2 (pyMap Complex.ofReal r))) }

/-- The DC-centered forward transform of a raw matrix, as `_compute_fft`
produces it. -/
noncomputable def forwardTransform (r : PyArr ℝ) : PyArr ℂ :=
  fftshift2 (fft2 (pyMap Complex.ofReal r))

/-- The value `get_data` computes for a kind from a raw matrix when the
transform and the kind's cache have to be (re)filled. -/
noncomputable def componentFromRaw (r : PyArr ℝ) (k : CompKind) : PyArr ℝ :=
  match k with
  | .raw => r
  | .magnitude => pyMap Complex.abs (forwardTransform r)
  | .phase => pyMap Complex.arg (forwardTransform r)
  | .real => pyMap Complex.re (forwardTransform r)
  | .imag => pyMap Complex.im (forwardTransform r)

/-- `ImageModel.get_data`: raises `ValueError` when nothing is loaded;
returns a defensive copy of the raw pixels for kind `raw`; otherwise fills
the transform if absent, fills the kind's cache if absent, and returns a
copy of the cached matrix together with the updated state (copies are
value-equal, so they are the identity in this embedding). -/
noncomputable def ImageModel.getData (s : ImageModel) (k : CompKind) :
    Except PyExc (PyArr ℝ × ImageModel) :=
  match s.rawPixels with
  | none => .error (.valueError "No image data loaded")
  | some r =>
    match k with
    | .raw => .ok (r, s)
    | .magnitude =>
        let s1 := if s.complexArr.isNone then s.computeFft else s
        let z := s1.complexArr.getD (pyConst 0 0 0)
        let c := s1.cachedMagnitude.getD (pyMap Complex.abs z)
        .ok (c, { s1 with cachedMagnitude := some c })
    | .phase =>
        let s1 := if s.complexArr.isNone then s.computeFft else s
        let z := s1.complexArr.getD (pyConst 0 0 0)
        let c := s1.cachedPhase.getD (pyMap Complex.arg z)
        .ok (c, { s1 with cachedPhase := some c })
    | .real =>
        let s1 := if s.complexArr.isNone then s.computeFft else s
        let z := s1.complexArr.getD (pyConst 0 0 0)
        let c := s1.cachedReal.getD (pyMap Complex.re z)
        .ok (c, { s1 with cachedReal := some c })
    | .imag =>
        let s1 := if s.complexArr.isNone then s.computeFft else s
        let z := s1.complexArr.getD (pyConst 0 0 0)
        let c := s1.cachedImag.getD (pyMap Complex.im z)
        .ok (c, { s1 with cachedImag := some c })

/-- The pure display post-processing of `ImageModel.get_visual_data`
(its `brightness`/`contrast` parameters are accepted but never used by the
source): log-compress the spectral kinds, min–max normalize (an all-zero
matrix when `max ≤ min`), clip to `[0, 1]`. -/
noncomputable def postVisual (k : CompKind) (data : PyArr ℝ) : PyArr ℝ :=
  let d1 :=
    if k = .magnitude ∨ k = .real ∨ k = .imag then
      pyMap (fun x => Real.log (|x| + 1)) data
    else data
  let mn := matMin d1
  let mx := matMax d1
  let d2 :=
    if mn < mx then pyMap (fun x => (x - mn) / (mx - mn)) d1
    else pyConst d1.rows d1.cols 0
  pyMap (fun x => max 0 (min x 1)) d2

/-- `ImageModel.get_visual_data`: `get_data` followed by the display
post-processing. -/
noncomputable def ImageModel.getVisualData (s : ImageModel) (k : CompKind) :
    Except PyExc (PyArr ℝ × ImageModel) :=
  match s.getData k with
  | .error e => .error e
  | .ok (data, s1) => .ok (postVisual k data, s1)

/-- The value `images[idx].get_visual_data(kind)` returns for a loaded
image, as a pure function of its raw matrix (the value `get_data` yields is
the kind's component of the centered transform of the raw matrix, whether
freshly computed or read from a coherent cache; `visual_value_of_loaded`
below proves this against `ImageModel.getVisualData`). -/
noncomputable def visualFromRaw (r : PyArr ℝ) (k : CompKind) : PyArr ℝ :=
  postVisual k (componentFromRaw r k)

/-! ## MixerEngine (src/engine/mixer_engine.py) -/

/-- The two specific mixing failure kinds
(`ValueError("No images provided")` and
`ValueError("Mask shape does not match image shape")` in the source). -/
inductive MixError
  | emptyImageSet
  | shapeMismatch
deriving DecidableEq, Repr

/-- `MixerEngine._perform_ifft`: undo the DC shift, inverse 2-D FFT, take
the real part, clip to `[0, 255]`. -/
noncomputable def performIfft (c : PyArr ℂ) : PyArr ℝ :=
  pyMap (fun x => max 0 (min x 255)) (pyMap Complex.re (ifft2 (ifftshift2 c)))

/-- One weight-mixing pass of `mix_images_mag_phase` /
`mix_images_real_imag` (the source repeats this block once per component
slot; `sources` is the weight dict as an association list in iteration
order, `shape` is `images[0].shape`).  Start from `np.zeros(shape)`; if the
sum of ALL the dict's weights is positive, add
`images[idx].get_visual_data(kind) * (w / total)` for every entry whose
index is `< len(images)`, silently skipping the rest; otherwise fall back
to `images[0].get_visual_data(kind)` unweighted. -/
noncomputable def mixedComponent (sources : List (ℕ × ℝ))
    (images : List (PyArr ℝ)) (k : CompKind) (shape : ℕ × ℕ) : PyArr ℝ :=
  let total := (sources.map Prod.snd).sum
  if 0 < total then
    sources.foldl
      (fun acc p =>
        if p.1 < images.length then
          matAdd acc (matScale (p.2 / total) (visualFromRaw (images.getD p.1 pyZero) k))
        else acc)
      (pyConst shape.1 shape.2 0)
  else visualFromRaw (images.headD pyZero) k

/-- `mixed_magnitude * np.exp(1j * mixed_phase)`. -/
noncomputable def reconMagPhase (m p : PyArr ℝ) : PyArr ℂ :=
  ⟨m.rows, m.cols, fun i j =>
    (m.entries i j : ℂ) * Complex.exp (Complex.I * (p.entries i j : ℂ))⟩

/-- `mixed_real + 1j * mixed_imag`. -/
noncomputable def reconRealImag (re im : PyArr ℝ) : PyArr ℂ :=
  ⟨re.rows, re.cols, fun i j =>
    (re.entries i j : ℂ) + Complex.I * (im.entries i j : ℂ)⟩

/-- `MixerEngine.mix_images_mag_phase`; `images` carries each loaded
image's raw matrix.  Raises on an empty image list; mixes magnitudes and
phases; if a mask is supplied, checks its shape against `images[0].shape`
and multiplies ONLY the mixed magnitude by it (the phase product is a
commented-out TODO in the source); reconstructs and inverts. -/
noncomputable def mix_images_mag_phase (magnitudeSources phaseSources : List (ℕ × ℝ))
    (images : List (PyArr ℝ)) (mask : Option (PyArr ℝ)) :
    Except MixError (PyArr ℝ) :=
  match images with
  | [] => .error .emptyImageSet
  | img0 :: _ =>
    let shape := img0.shape
    let mixedMagnitude := mixedComponent magnitudeSources images .magnitude shape
    let mixedPhase := mixedComponent phaseSources images .phase shape
    match mask with
    | none => .ok (performIfft (reconMagPhase mixedMagnitude mixedPhase))
    | some mk =>
        if mk.shape ≠ shape then .error .shapeMismatch
        else .ok (performIfft (reconMagPhase (hadamard mixedMagnitude mk) mixedPhase))

/-- `MixerEngine.mix_images_real_imag`: identical structure over the real
and imaginary components, except that a supplied mask multiplies BOTH
mixed parts. -/
noncomputable def mix_images_real_imag (realSources imagSources : List (ℕ × ℝ))
    (images : List (PyArr ℝ)) (mask : Option (PyArr ℝ)) :
    Except MixError (PyArr ℝ) :=
  match images with
  | [] => .error .emptyImageSet
  | img0 :: _ =>
    let shape := img0.shape
    let mixedReal := mixedComponent realSources images .real shape
    let mixedImag := mixedComponent imagSources images .imag shape
    match mask with
    | none => .ok (performIfft (reconRealImag mixedReal mixedImag))
    | some mk =>
        if mk.shape ≠ shape then .error .shapeMismatch
        else .ok (performIfft (reconRealImag (hadamard mixedReal mk) (hadamard mixedImag mk)))

/-! ## RegionHandler.create_mask (src/utils/region_handler.py) -/

/-- `RegionHandler.create_mask`: with no rectangle, an all-ones matrix of
the given `(height, width)` shape.  Otherwise each x coordinate is clamped
into `[0, width-1]` and each y coordinate into `[0, height-1]`, the pair is
swapped if needed so `x1 ≤ x2` and `y1 ≤ y2`, and the array is filled with
the inner value on rows `y1..y2` and columns `x1..x2` (bounds inclusive,
matching the slice `mask[y1:y2+1, x1:x2+1]`) and the outer value elsewhere:
inner 1/outer 0 when `is_inner`, inner 0/outer 1 otherwise. -/
def createMask (shape : ℕ × ℕ) (rectCoords : Option (ℤ × ℤ × ℤ × ℤ))
    (isInner : Bool) : PyArr ℝ :=
  match rectCoords with
  | none => pyConst shape.1 shape.2 1
  | some (x1, y1, x2, y2) =>
    let cx1 := max 0 (min x1 ((shape.2 : ℤ) - 1))
    let cy1 := max 0 (min y1 ((shape.1 : ℤ) - 1))
    let cx2 := max 0 (min x2 ((shape.2 : ℤ) - 1))
    let cy2 := max 0 (min y2 ((shape.1 : ℤ) - 1))
    let a1 := min cx1 cx2
    let a2 := max cx1 cx2
    let b1 := min cy1 cy2
    let b2 := max cy1 cy2
    ⟨shape.1, shape.2, fun i j =>
      if b1 ≤ (i : ℤ) ∧ (i : ℤ) ≤ b2 ∧ a1 ≤ (j : ℤ) ∧ (j : ℤ) ≤ a2 then
        (if isInner then 1 else 0)
      else
        (if isInner then 0 else 1)⟩

/-! ## GlobalSessionState (src/models/global_session_state.py) and
UnitUnificator (src/utils/unit_unificator.py) -/

/-- `GlobalSessionState`: the index → ImageModel dict in insertion order,
plus the enforced minimum shape. -/
structure GlobalSessionState where
  images : List (ℕ × ImageModel)
  minShape : Option (ℕ × ℕ)

/-- `GlobalSessionState()`. -/
def GlobalSessionState.init : GlobalSessionState := ⟨[], none⟩

/-- `GlobalSessionState.get_all_images`: the dict's values in order. -/
def GlobalSessionState.getAllImages (st : GlobalSessionState) :
    List ImageModel := st.images.map Prod.snd

/-- `GlobalSessionState.store_image`: dict assignment — overwrite the
slot if present, else append. -/
def GlobalSessionState.storeImage (idx : ℕ) (img : ImageModel)
    (st : GlobalSessionState) : GlobalSessionState :=
  if (st.images.map Prod.fst).contains idx then
    { st with images := st.images.map fun p => if p.1 = idx then (idx, img) else p }
  else
    { st with images := st.images ++ [(idx, img)] }

/-- `GlobalSessionState.remove_image`: delete the slot if present; clear
`min_shape` when no images remain. -/
def GlobalSessionState.removeImage (idx : ℕ) (st : GlobalSessionState) :
    GlobalSessionState :=
  let imgs := st.images.filter fun p => p.1 ≠ idx
  { images := imgs, minShape := if imgs.isEmpty then none else st.minShape }

/-- The height `h` of `h, w = img.shape` (the shape tuple set by load and
resize is always 2-D). -/
def imgHeight (img : ImageModel) : ℕ := img.shape.headD 0

/-- The width `w` of `h, w = img.shape`. -/
def imgWidth (img : ImageModel) : ℕ := img.shape.getD 1 0

/-- `UnitUnificator._find_min_dimensions`: `none` on an empty list (the
source raises `ValueError` there).  The source's docstring says it uses
ORIGINAL image sizes, but `ImageModel` never defines the attribute
`_original_raw_pixels` it probes for (no code in the repository assigns
it), so `hasattr(img, '_original_raw_pixels')` is false for every image
and the fallback `h, w = img.shape` — the CURRENT, possibly already-shrunk
shape — is always taken.  The float-infinity seed of the source's running
minimum is replaced by seeding with the first image's dimensions, which is
equivalent on a non-empty list. -/
def findMinDimensions (imgs : List ImageModel) : Option (ℕ × ℕ) :=
  match imgs with
  | [] => none
  | i0 :: rest =>
      some (rest.foldl
        (fun p img => (min p.1 (imgHeight img), min p.2 (imgWidth img)))
        (imgHeight i0, imgWidth i0))

/-- `UnitUnificator.enforce_unified_size`: no-op on an empty session;
otherwise recompute the minimum dimensions, record them as the session's
`min_shape`, and resize in place every image whose shape differs. -/
noncomputable def enforceUnifiedSize (resample : PyArr ℝ → ℕ × ℕ → PyArr ℝ)
    (st : GlobalSessionState) : GlobalSessionState :=
  match findMinDimensions st.getAllImages with
  | none => st
  | some ms =>
      { images := st.images.map fun p =>
          (p.1, if p.2.shape ≠ [ms.1, ms.2] then p.2.resize resample ms else p.2),
        minShape := some ms }

/-! ## AsyncJobManager (src/engine/async_job_manager.py) -/

/-- The inputs dict handed to `AsyncJobManager.start_mixing_job`
(mode, the two weight dicts, the image list, the optional mask). -/
structure MixInputs where
  mode : String
  weights1 : List (ℕ × ℝ)
  weights2 : List (ℕ × ℝ)
  images : List (PyArr ℝ)
  mask : Option (PyArr ℝ)

/-- `self._mixer_engine.run_async_task(inputs)` as evaluated by Python:
`MixerEngine` (src/engine/mixer_engine.py) defines only `__init__`,
`_perform_ifft`, `mix_images_mag_phase`, `mix_images_real_imag`,
`mix_images_unified` and `create_region_mask` — no attribute
`run_async_task` exists on the instance, the class, or any base class, so
the attribute lookup raises `AttributeError` for every input before any
mixing can run. -/
def runAsyncTask (_ : MixInputs) : Except PyExc (PyArr ℝ) :=
  .error (.attributeError "MixerEngine" "run_async_task")

/-- The `AsyncJobManager` fields guarded by its lock: the cancellation
flag, the progress scalar and the optional result. -/
structure JobState where
  jobCancelled : Bool
  progress : ℚ
  result : Option (PyArr ℝ)

/-- The state-reset step of `start_mixing_job`, taken under the lock after
cancelling any previous job: flag cleared, progress `0.0`, result `None`. -/
def startMixingJobReset (_ : JobState) : JobState :=
  { jobCancelled := false, progress := 0, result := none }

/-- The background `job_worker` closure of `start_mixing_job`, as a
transformer of the lock-guarded state: bail out if cancelled, publish
progress `0.1`, call `MixerEngine.run_async_task`, and either publish the
result with progress `1.0` (if still not cancelled) or — on any
exception — publish the error sentinel `-1.0` and clear the result. -/
def jobWorker (inputs : MixInputs) (s : JobState) : JobState :=
  if s.jobCancelled then s
  else
    let s1 := { s with progress := 1 / 10 }
    match runAsyncTask inputs with
    | .ok r => if s1.jobCancelled then s1 else { s1 with progress := 1, result := some r }
    | .error _ => { s1 with progress := -1, result := none }

/-! ## Concrete fixtures used by several claims -/

/-- A loaded 1×1 image with intensity 5. -/
def raw5 : PyArr ℝ := pyConst 1 1 5

/-- A 1×2 image with intensities `[[1, 3]]`. -/
def rawX : PyArr ℝ := ⟨1, 2, fun _ j => if j = 0 then 1 else 3⟩

/-- A freshly loaded `ImageModel` holding the given raw matrix. -/
def mkLoaded (r : PyArr ℝ) : ImageModel :=
  ImageModel.loadFromContents (some r) ImageModel.init

/-! ## Claim theorems -/

/-- C1.  The claim says a job whose inputs are valid (a valid mode, two
weight maps, a non-empty image list, a well-shaped or absent mask) ends
with the mixed matrix stored and progress `1.0`.  In fact `job_worker`
calls `MixerEngine.run_async_task`, a method the engine never defines, so
EVERY freshly submitted job — whatever its inputs — raises
`AttributeError` and takes the failure branch: error-sentinel progress
`-1.0` and a cleared result.  Meanwhile the mixing computation itself
(`mix_images_mag_phase`) does succeed on such valid inputs, so the failure
is the manager's, not the algorithm's. -/
theorem C1_job_worker_always_fails :
    (∀ (inputs : MixInputs) (s : JobState),
      jobWorker inputs (startMixingJobReset s) =
        { jobCancelled := false, progress := -1, result := none }) ∧
    (∃ out, mix_images_mag_phase [(0, 1)] [(0, 1)] [raw5] none = .ok out) := by
  refine ⟨fun inputs s => rfl, ⟨_, rfl⟩⟩

/-- C5.  With a mask of the reference shape supplied, `mix_images_mag_phase`
multiplies only the mixed magnitude by the mask — the phase factor fed to
the reconstruction is the unmasked `mixedComponent` — while
`mix_images_real_imag` multiplies both the mixed real and the mixed
imaginary components by the mask; moreover masking the magnitude alone
still scales every spectrum entry by the mask value. -/
theorem C5_mask_asymmetry (w1 w2 : List (ℕ × ℝ)) (img0 : PyArr ℝ)
    (rest : List (PyArr ℝ)) (mk : PyArr ℝ) (hm : mk.shape = img0.shape) :
    mix_images_mag_phase w1 w2 (img0 :: rest) (some mk) =
      .ok (performIfft (reconMagPhase
        (hadamard (mixedComponent w1 (img0 :: rest) .magnitude img0.shape) mk)
        (mixedComponent w2 (img0 :: rest) .phase img0.shape)))
  ∧ (∀ (M P : PyArr ℝ) (i j : ℕ),
      (reconMagPhase (hadamard M mk) P).entries i j =
        (mk.entries i j : ℂ) * (reconMagPhase M P).entries i j)
  ∧ mix_images_real_imag w1 w2 (img0 :: rest) (some mk) =
      .ok (performIfft (reconRealImag
        (hadamard (mixedComponent w1 (img0 :: rest) .real img0.shape) mk)
        (hadamard (mixedComponent w2 (img0 :: rest) .imag img0.shape) mk))) := by
  refine ⟨?_, ?_, ?_⟩
  · simp [mix_images_mag_phase, hm]
  · intro M P i j
    simp only [reconMagPhase, hadamard, Complex.ofReal_mul]
    ring
  · simp [mix_images_real_imag, hm]

/-- Witness for C5 at a concrete input: a single loaded 1×1 image and a
1×1 mask of matching shape. -/
theorem C5_mask_asymmetry_witness :
    (pyConst 1 1 (0 : ℝ)).shape = raw5.shape ∧
    (mix_images_mag_phase [(0, 1)] [(0, 1)] [raw5] (some (pyConst 1 1 0)) =
        .ok (performIfft (reconMagPhase
          (hadamard (mixedComponent [(0, 1)] [raw5] .magnitude raw5.shape) (pyConst 1 1 0))
          (mixedComponent [(0, 1)] [raw5] .phase raw5.shape)))
      ∧ (∀ (M P : PyArr ℝ) (i j : ℕ),
          (reconMagPhase (hadamard M (pyConst 1 1 0)) P).entries i j =
            ((pyConst 1 1 (0 : ℝ)).entries i j : ℂ) * (reconMagPhase M P).entries i j)
      ∧ mix_images_real_imag [(0, 1)] [(0, 1)] [raw5] (some (pyConst 1 1 0)) =
          .ok (performIfft (reconRealImag
            (hadamard (mixedComponent [(0, 1)] [raw5] .real raw5.shape) (pyConst 1 1 0))
            (hadamard (mixedComponent [(0, 1)] [raw5] .imag raw5.shape) (pyConst 1 1 0))))) :=
  ⟨rfl, C5_mask_asymmetry [(0, 1)] [(0, 1)] raw5 [] (pyConst 1 1 0) rfl⟩

/-- C6.  Both mixing entry points fail with the `EmptyImageSet` kind
(`ValueError("No images provided")`) whenever the image list is empty, and
with the `ShapeMismatch` kind (`ValueError("Mask shape does not match image
shape")`) whenever a mask is supplied whose shape differs from the first
image's; in each case the specific error kind is raised and no result
matrix is produced. -/
theorem C6_mix_error_kinds :
    (∀ (w1 w2 : List (ℕ × ℝ)) (mask : Option (PyArr ℝ)),
      mix_images_mag_phase w1 w2 [] mask = .error .emptyImageSet ∧
      mix_images_real_imag w1 w2 [] mask = .error .emptyImageSet) ∧
    (∀ (w1 w2 : List (ℕ × ℝ)) (img0 : PyArr ℝ) (rest : List (PyArr ℝ))
        (mk : PyArr ℝ), mk.shape ≠ img0.shape →
      mix_images_mag_phase w1 w2 (img0 :: rest) (some mk) = .error .shapeMismatch ∧
      mix_images_real_imag w1 w2 (img0 :: rest) (some mk) = .error .shapeMismatch) := by
  refine ⟨fun w1 w2 mask => ⟨rfl, rfl⟩, fun w1 w2 img0 rest mk h => ⟨?_, ?_⟩⟩
  · simp [mix_images_mag_phase, h]
  · simp [mix_images_real_imag, h]

/-- Witness for C6 at concrete inputs: the empty image list, and a single
1×1 image with a mismatched 2×2 mask. -/
theorem C6_mix_error_kinds_witness :
    (mix_images_mag_phase [(0, 1)] [(0, 1)] [] none = .error .emptyImageSet ∧
     mix_images_real_imag [(0, 1)] [(0, 1)] [] none = .error .emptyImageSet) ∧
    ((pyConst 2 2 (1 : ℝ)).shape ≠ raw5.shape ∧
     mix_images_mag_phase [(0, 1)] [(0, 1)] [raw5] (some (pyConst 2 2 1)) =
        .error .shapeMismatch ∧
     mix_images_real_imag [(0, 1)] [(0, 1)] [raw5] (some (pyConst 2 2 1)) =
        .error .shapeMismatch) := by
  have h : (pyConst 2 2 (1 : ℝ)).shape ≠ raw5.shape := by decide
  exact ⟨C6_mix_error_kinds.1 [(0, 1)] [(0, 1)] none,
    h, C6_mix_error_kinds.2 [(0, 1)] [(0, 1)] raw5 [] (pyConst 2 2 1) h⟩

/-- C9.  For every shape, every rectangle and every in-range position, the
inner and the outer mask are exact elementwise complements: exactly one of
them holds `1.0` and the other `0.0`, so their elementwise sum is the
all-ones matrix. -/
theorem C9_mask_complement (shape : ℕ × ℕ) (rect : ℤ × ℤ × ℤ × ℤ) (i j : ℕ)
    (hi : i < shape.1) (hj : j < shape.2) :
    ((createMask shape (some rect) true).entries i j = 1 ∧
       (createMask shape (some rect) false).entries i j = 0 ∨
     (createMask shape (some rect) true).entries i j = 0 ∧
       (createMask shape (some rect) false).entries i j = 1) ∧
    (createMask shape (some rect) true).entries i j +
      (createMask shape (some rect) false).entries i j = 1 := by
  obtain ⟨x1, y1, x2, y2⟩ := rect
  simp only [createMask]
  split_ifs with h <;> simp_all

/-- Witness for C9 at a concrete input: shape `(2, 3)`, rectangle
`(0, 0, 1, 1)`, position `(0, 0)`. -/
theorem C9_mask_complement_witness :
    (0 < 2 ∧ 0 < 3) ∧
    (((createMask (2, 3) (some (0, 0, 1, 1)) true).entries 0 0 = 1 ∧
        (createMask (2, 3) (some (0, 0, 1, 1)) false).entries 0 0 = 0 ∨
      (createMask (2, 3) (some (0, 0, 1, 1)) true).entries 0 0 = 0 ∧
        (createMask (2, 3) (some (0, 0, 1, 1)) false).entries 0 0 = 1) ∧
     (createMask (2, 3) (some (0, 0, 1, 1)) true).entries 0 0 +
       (createMask (2, 3) (some (0, 0, 1, 1)) false).entries 0 0 = 1) :=
  ⟨⟨by decide, by decide⟩,
    C9_mask_complement (2, 3) (0, 0, 1, 1) 0 0 (by decide) (by decide)⟩

/-- C10.  `resize` feeds `raw.astype(np.uint8)` to the resampler, so every
entry handed on is an integer in `[0, 255]`, and two stored raws that
differ only in fractional intensity (here `[[0.25]]` and `[[0.75]]`)
become indistinguishable: whatever the resampler does and whatever the
target shape, the two resized models are identical — the fractional
information is irreversibly discarded even though `raw` is stored and
served as float64. -/
theorem C10_resize_uint8_quantization :
    (∀ (m : PyArr ℝ) (i j : ℕ), ∃ n : ℕ, n ≤ 255 ∧
        (castUint8 m).entries i j = (n : ℝ)) ∧
    (mkLoaded (pyConst 1 1 (1 / 4)) ≠ mkLoaded (pyConst 1 1 (3 / 4)) ∧
     ∀ (resample : PyArr ℝ → ℕ × ℕ → PyArr ℝ) (t : ℕ × ℕ),
       (mkLoaded (pyConst 1 1 (1 / 4))).resize resample t =
         (mkLoaded (pyConst 1 1 (3 / 4))).resize resample t) := by
  refine ⟨?_, ?_, ?_⟩
  · intro m i j
    refine ⟨(truncTowardZero (m.entries i j) % 256).toNat, ?_, ?_⟩
    · have h1 : 0 ≤ truncTowardZero (m.entries i j) % 256 :=
        Int.emod_nonneg _ (by norm_num)
      have h2 : truncTowardZero (m.entries i j) % 256 < 256 :=
        Int.emod_lt_of_pos _ (by norm_num)
      omega
    · have h1 : 0 ≤ truncTowardZero (m.entries i j) % 256 :=
        Int.emod_nonneg _ (by norm_num)
      have h3 : ((truncTowardZero (m.entries i j) % 256).toNat : ℤ) =
          truncTowardZero (m.entries i j) % 256 := Int.toNat_of_nonneg h1
      simp only [castUint8, pyMap]
      exact_mod_cast h3.symm
  · intro h
    have h2 := congrArg (fun s => s.rawPixels) h
    simp only [mkLoaded, ImageModel.loadFromContents, ImageModel.resetCache,
      ImageModel.init, Option.some.injEq] at h2
    have h3 := congrArg (fun m => m.entries 0 0) h2
    norm_num [pyConst] at h3
  · intro resample t
    have hfloor1 : ⌊(1 / 4 : ℝ)⌋ = 0 := by
      rw [Int.floor_eq_zero_iff]
      constructor <;> norm_num
    have hfloor3 : ⌊(3 / 4 : ℝ)⌋ = 0 := by
      rw [Int.floor_eq_zero_iff]
      constructor <;> norm_num
    have hc : castUint8 (pyConst 1 1 ((1 : ℝ) / 4)) =
        castUint8 (pyConst 1 1 ((3 : ℝ) / 4)) := by
      simp only [castUint8, pyMap, pyConst]
      congr 1
      funext i j
      norm_num [truncTowardZero, hfloor1, hfloor3]
    simp only [mkLoaded, ImageModel.loadFromContents, ImageModel.resetCache,
      ImageModel.init, ImageModel.resize]
    rw [hc]

/-- The C2 scenario session: three loaded images of heights 100, 80, 120
and common width 50, in slots 0, 1, 2. -/
def scenarioS0 : GlobalSessionState :=
  ⟨[(0, mkLoaded (pyConst 100 50 0)), (1, mkLoaded (pyConst 80 50 0)),
    (2, mkLoaded (pyConst 120 50 0))], none⟩

/-- C2.  The claim (and the source's own docstring) says
`_find_min_dimensions` works from each image's ORIGINAL pre-resize
dimensions, so that after unifying heights 100/80/120 to 80 and removing
the 80-height image, re-running enforcement grows the common height back
to 100.  In fact no code in the repository ever assigns the
`_original_raw_pixels` attribute the function probes for, so it always
falls back to the current (already-shrunk) shapes: after the first
enforcement all three images report shape `(80, 50)` (that much of the
claim holds), and after removing slot 1 and re-running, the common shape
stays `(80, 50)` instead of growing back to `(100, 50)` — the size
ratchets down permanently, whatever resampler PIL provides. -/
theorem C2_min_dimensions_ratchet (resample : PyArr ℝ → ℕ × ℕ → PyArr ℝ) :
    (enforceUnifiedSize resample scenarioS0).getAllImages.map ImageModel.shape =
      [[80, 50], [80, 50], [80, 50]] ∧
    (enforceUnifiedSize resample
        ((enforceUnifiedSize resample scenarioS0).removeImage 1)).minShape =
      some (80, 50) ∧
    (80, 50) ≠ ((100 : ℕ), (50 : ℕ)) := by
  refine ⟨?_, ?_, by decide⟩
  · simp [enforceUnifiedSize, scenarioS0, mkLoaded, ImageModel.loadFromContents,
      ImageModel.resetCache, ImageModel.init, findMinDimensions,
      GlobalSessionState.getAllImages, imgHeight, imgWidth, ImageModel.resize,
      ImageModel.shape, pyConst]
  · simp [enforceUnifiedSize, scenarioS0, mkLoaded, ImageModel.loadFromContents,
      ImageModel.resetCache, ImageModel.init, findMinDimensions,
      GlobalSessionState.getAllImages, GlobalSessionState.removeImage,
      imgHeight, imgWidth, ImageModel.resize, pyConst]

/-- Whatever `get_data` answers, asking again from the state it leaves
behind answers the same value and leaves the state untouched: the cache
fill is consistent with the caches it fills. -/
theorem getData_stable (s : ImageModel) (k : CompKind) (d : PyArr ℝ)
    (s1 : ImageModel) (h : s.getData k = .ok (d, s1)) :
    s1.getData k = .ok (d, s1) := by
  cases hr : s.rawPixels with
  | none => simp [ImageModel.getData, hr] at h
  | some r =>
    cases k with
    | raw =>
      simp only [ImageModel.getData, hr, Except.ok.injEq, Prod.mk.injEq] at h
      obtain ⟨rfl, rfl⟩ := h
      simp [ImageModel.getData, hr]
    | magnitude =>
      by_cases hc : s.complexArr = none <;>
        · simp only [ImageModel.getData, ImageModel.computeFft, hr, hc,
            Except.ok.injEq, Prod.mk.injEq] at h
          obtain ⟨rfl, rfl⟩ := h
          simp [ImageModel.getData, ImageModel.computeFft, hr, hc]
    | phase =>
      by_cases hc : s.complexArr = none <;>
        · simp only [ImageModel.getData, ImageModel.computeFft, hr, hc,
            Except.ok.injEq, Prod.mk.injEq] at h
          obtain ⟨rfl, rfl⟩ := h
          simp [ImageModel.getData, ImageModel.computeFft, hr, hc]
    | real =>
      by_cases hc : s.complexArr = none <;>
        · simp only [ImageModel.getData, ImageModel.computeFft, hr, hc,
            Except.ok.injEq, Prod.mk.injEq] at h
          obtain ⟨rfl, rfl⟩ := h
          simp [ImageModel.getData, ImageModel.computeFft, hr, hc]
    | imag =>
      by_cases hc : s.complexArr = none <;>
        · simp only [ImageModel.getData, ImageModel.computeFft, hr, hc,
            Except.ok.injEq, Prod.mk.injEq] at h
          obtain ⟨rfl, rfl⟩ := h
          simp [ImageModel.getData, ImageModel.computeFft, hr, hc]

/-- `get_data` succeeds on every loaded image. -/
theorem getData_ok (s : ImageModel) (k : CompKind) (r : PyArr ℝ)
    (h : s.rawPixels = some r) :
    ∃ d s1, s.getData k = .ok (d, s1) := by
  cases k <;>
    · simp only [ImageModel.getData, h]
      exact ⟨_, _, rfl⟩

/-- The display post-processing ends in a clip, so every entry it produces
lies in `[0, 1]`. -/
theorem postVisual_bounded (k : CompKind) (d : PyArr ℝ) (i j : ℕ) :
    0 ≤ (postVisual k d).entries i j ∧ (postVisual k d).entries i j ≤ 1 := by
  simp only [postVisual, pyMap]
  exact ⟨le_max_left _ _, max_le (by norm_num) (min_le_right _ _)⟩

/-- C7.  For every loaded image and every component kind,
`get_visual_data` succeeds with a matrix whose entries all lie in
`[0, 1]`, and calling it again with the same argument and no intervening
mutation returns the identical matrix and leaves the state unchanged: the
log compression is applied to a fresh copy each time, never cumulatively. -/
theorem C7_visual_bounded_idempotent (s : ImageModel) (k : CompKind)
    (r : PyArr ℝ) (h : s.rawPixels = some r) :
    ∃ v s1, s.getVisualData k = .ok (v, s1)
      ∧ (∀ i j, 0 ≤ v.entries i j ∧ v.entries i j ≤ 1)
      ∧ s1.getVisualData k = .ok (v, s1) := by
  obtain ⟨d, s1, hd⟩ := getData_ok s k r h
  refine ⟨postVisual k d, s1, ?_, fun i j => postVisual_bounded k d i j, ?_⟩
  · simp [ImageModel.getVisualData, hd]
  · simp [ImageModel.getVisualData, getData_stable s k d s1 hd]

/-- Witness for C7 at a concrete input: the freshly loaded 1×1 image of
intensity 5, component kind `magnitude`. -/
theorem C7_visual_bounded_idempotent_witness :
    (mkLoaded raw5).rawPixels = some raw5 ∧
    (∃ v s1, (mkLoaded raw5).getVisualData .magnitude = .ok (v, s1)
      ∧ (∀ i j, 0 ≤ v.entries i j ∧ v.entries i j ≤ 1)
      ∧ s1.getVisualData .magnitude = .ok (v, s1)) :=
  ⟨rfl, C7_visual_bounded_idempotent (mkLoaded raw5) .magnitude raw5 rfl⟩

/-- The invalidated-state predicate: transform and all four derived caches
hold `None`. -/
def cachesCleared (s : ImageModel) : Prop :=
  s.complexArr = none ∧ s.cachedMagnitude = none ∧ s.cachedPhase = none ∧
  s.cachedReal = none ∧ s.cachedImag = none

/-- On a loaded image whose transform and caches are all cleared,
`get_data` for a spectral kind recomputes everything from the current raw
matrix. -/
theorem getData_fresh (s : ImageModel) (r : PyArr ℝ) (k : CompKind)
    (hr : s.rawPixels = some r) (hc : cachesCleared s) (hk : k ≠ .raw) :
    ∃ s2, s.getData k = .ok (componentFromRaw r k, s2) := by
  obtain ⟨h1, h2, h3, h4, h5⟩ := hc
  cases k with
  | raw => exact absurd rfl hk
  | magnitude =>
      refine ⟨{ s with
        rawPixels := some r
        complexArr := some (forwardTransform r)
        cachedMagnitude := some (componentFromRaw r .magnitude) }, ?_⟩
      simp [ImageModel.getData, ImageModel.computeFft, hr, h1, h2,
        componentFromRaw, forwardTransform]
  | phase =>
      refine ⟨{ s with
        rawPixels := some r
        complexArr := some (forwardTransform r)
        cachedPhase := some (componentFromRaw r .phase) }, ?_⟩
      simp [ImageModel.getData, ImageModel.computeFft, hr, h1, h3,
        componentFromRaw, forwardTransform]
  | real =>
      refine ⟨{ s with
        rawPixels := some r
        complexArr := some (forwardTransform r)
        cachedReal := some (componentFromRaw r .real) }, ?_⟩
      simp [ImageModel.getData, ImageModel.computeFft, hr, h1, h4,
        componentFromRaw, forwardTransform]
  | imag =>
      refine ⟨{ s with
        rawPixels := some r
        complexArr := some (forwardTransform r)
        cachedImag := some (componentFromRaw r .imag) }, ?_⟩
      simp [ImageModel.getData, ImageModel.computeFft, hr, h1, h5,
        componentFromRaw, forwardTransform]

/-- C8.  A successful load (a decoded matrix) and a resize each clear the
transform and all four derived caches in the same lock-guarded critical
section as the raw mutation, so a subsequent `get_data` for any spectral
kind recomputes its value from the new raw matrix — never from anything
derived from the previous raw. -/
theorem C8_mutation_resets_caches (s : ImageModel) (k : CompKind)
    (hk : k ≠ .raw) :
    (∀ m : PyArr ℝ, cachesCleared (s.loadFromContents (some m)) ∧
       ∃ s2, (s.loadFromContents (some m)).getData k =
         .ok (componentFromRaw m k, s2)) ∧
    (∀ (resample : PyArr ℝ → ℕ × ℕ → PyArr ℝ) (t : ℕ × ℕ) (r : PyArr ℝ),
       s.rawPixels = some r →
       cachesCleared (s.resize resample t) ∧
       ∃ s2, (s.resize resample t).getData k =
         .ok (componentFromRaw (resample (castUint8 r) t) k, s2)) := by
  constructor
  · intro m
    have hcc : cachesCleared (s.loadFromContents (some m)) := by
      simp [ImageModel.loadFromContents, ImageModel.resetCache, cachesCleared]
    have hrp : (s.loadFromContents (some m)).rawPixels = some m := by
      simp [ImageModel.loadFromContents, ImageModel.resetCache]
    exact ⟨hcc, getData_fresh _ m k hrp hcc hk⟩
  · intro resample t r hr
    have hcc : cachesCleared (s.resize resample t) := by
      simp [ImageModel.resize, ImageModel.resetCache, hr, cachesCleared]
    have hrp : (s.resize resample t).rawPixels =
        some (resample (castUint8 r) t) := by
      simp [ImageModel.resize, ImageModel.resetCache, hr]
    exact ⟨hcc, getData_fresh _ _ k hrp hcc hk⟩

/-- Witness for C8 at a concrete input: kind `magnitude` on the freshly
loaded 1×1 image of intensity 5 (whose raw pixels are concretely present,
so the resize conjunct's inner hypothesis is dischargeable too). -/
theorem C8_mutation_resets_caches_witness :
    (CompKind.magnitude ≠ CompKind.raw) ∧
    ((∀ m : PyArr ℝ, cachesCleared ((mkLoaded raw5).loadFromContents (some m)) ∧
       ∃ s2, ((mkLoaded raw5).loadFromContents (some m)).getData .magnitude =
         .ok (componentFromRaw m .magnitude, s2)) ∧
     (∀ (resample : PyArr ℝ → ℕ × ℕ → PyArr ℝ) (t : ℕ × ℕ) (r : PyArr ℝ),
       (mkLoaded raw5).rawPixels = some r →
       cachesCleared ((mkLoaded raw5).resize resample t) ∧
       ∃ s2, ((mkLoaded raw5).resize resample t).getData .magnitude =
         .ok (componentFromRaw (resample (castUint8 r) t) .magnitude, s2))) :=
  ⟨by decide, C8_mutation_resets_caches (mkLoaded raw5) .magnitude (by decide)⟩

/-! ## Evaluation lemmas for the concrete fixtures -/

/-- The centered transform of the constant 1×1 image is constantly 5. -/
theorem raw5_ft_entries (i j : ℕ) : (forwardTransform raw5).entries i j = 5 := by
  simp [forwardTransform, fftshift2, fft2, pyMap, raw5, pyConst]

/-- On a 1×1 array every display post-processing collapses to zero: the
minimum equals the maximum, so the normalization branch yields the
all-zero matrix. -/
theorem postVisual_1x1 (k : CompKind) (d : PyArr ℝ) (h1 : d.rows = 1)
    (h2 : d.cols = 1) (i j : ℕ) : (postVisual k d).entries i j = 0 := by
  have hidx : idxList 1 1 = [(0, 0)] := by rfl
  rw [postVisual]
  by_cases hk : k = .magnitude ∨ k = .real ∨ k = .imag
  · rw [if_pos hk]
    have hmn : matMin (pyMap (fun x => Real.log (|x| + 1)) d) =
        matMax (pyMap (fun x => Real.log (|x| + 1)) d) := by
      rw [matMin, matMax]
      simp [pyMap, h1, h2, hidx]
    rw [if_neg (by rw [hmn]; exact lt_irrefl _)]
    simp [pyMap, pyConst]
  · rw [if_neg hk]
    have hmn : matMin d = matMax d := by
      rw [matMin, matMax]
      simp [h1, h2, hidx]
    rw [if_neg (by rw [hmn]; exact lt_irrefl _)]
    simp [pyMap, pyConst]

/-- Every display component of the 1×1 intensity-5 image is the zero
matrix (minimum equals maximum on a single pixel). -/
theorem raw5_visual_entries (k : CompKind) (i j : ℕ) :
    (visualFromRaw raw5 k).entries i j = 0 := by
  have h1 : (componentFromRaw raw5 k).rows = 1 := by cases k <;> rfl
  have h2 : (componentFromRaw raw5 k).cols = 1 := by cases k <;> rfl
  exact postVisual_1x1 k _ h1 h2 i j

/-- The unit-weight single-image mix of any component of `raw5` is the
zero matrix. -/
theorem mixed_raw5_entries (k : CompKind) (i j : ℕ) :
    (mixedComponent [(0, 1)] [raw5] k raw5.shape).entries i j = 0 := by
  rw [mixedComponent]
  norm_num [matAdd, matScale, pyConst, raw5_visual_entries]

/-- C3.  The claim says the identity mix (weights `{0: 1.0}` on both
slots, one image, no mask) reproduces the image's reconstruction, i.e.
approximately the raw image itself, via the round-trip law.  In fact the
mixer feeds the DISPLAY-normalized components (`get_visual_data`, log
compressed and min–max scaled to `[0,1]`) into the reconstruction instead
of the true magnitude/phase (`get_data`): for the 1×1 intensity-5 image
the display components are identically zero, so the identity mix returns
the all-zero image, while the genuine round trip
`_perform_ifft(fftshift(fft2(raw)))` returns the raw intensity 5. -/
theorem C3_identity_mix_is_not_roundtrip :
    (∃ out, mix_images_mag_phase [(0, 1)] [(0, 1)] [raw5] none = .ok out ∧
       out.entries 0 0 = 0) ∧
    (performIfft (forwardTransform raw5)).entries 0 0 = 5 ∧
    raw5.entries 0 0 = 5 ∧
    (0 : ℝ) ≠ 5 := by
  refine ⟨⟨_, rfl, ?_⟩, ?_, rfl, by norm_num⟩
  · rw [performIfft]
    simp only [pyMap, ifft2, ifftshift2, reconMagPhase, mixed_raw5_entries]
    norm_num
  · have hr : (ifftshift2 (forwardTransform raw5)).rows = 1 := rfl
    have hc : (ifftshift2 (forwardTransform raw5)).cols = 1 := rfl
    have hshift : ∀ i j : ℕ,
        (ifftshift2 (forwardTransform raw5)).entries i j = 5 := by
      intro i j
      rw [ifftshift2]
      exact raw5_ft_entries _ _
    rw [performIfft]
    simp only [pyMap, ifft2, hr, hc, hshift, Finset.sum_range_one]
    norm_num

/-! ## C4: weight normalization over all entries, not only in-range ones -/

/-- The entry `(0,1)` of the centered transform of `[[1, 3]]` is
`1 + 3·exp(-πi) = -2`. -/
theorem rawX_ft_00 : (forwardTransform rawX).entries 0 0 = -2 := by
  simp only [forwardTransform, fftshift2, fft2, pyMap, rawX]
  norm_num [Finset.sum_range_succ, Finset.sum_range_one]
  have h : -(2 * (Real.pi : ℂ) * Complex.I * (1 / 2)) =
      -((Real.pi : ℂ) * Complex.I) := by ring
  rw [h, Complex.exp_neg, Complex.exp_pi_mul_I]
  norm_num

/-- The entry `(0,0)` of the transform of `[[1, 3]]` is `1 + 3 = 4`. -/
theorem rawX_ft_01 : (forwardTransform rawX).entries 0 1 = 4 := by
  simp only [forwardTransform, fftshift2, fft2, pyMap, rawX]
  norm_num [Finset.sum_range_succ, Finset.sum_range_one]

/-- The phase component of `[[1, 3]]` at `(0,0)`: `arg(-2) = π`. -/
theorem rawX_phase_00 : (componentFromRaw rawX .phase).entries 0 0 = Real.pi := by
  have h2 : ((-2 : ℝ) : ℂ) = -2 := by norm_num
  simp only [componentFromRaw, pyMap, rawX_ft_00]
  rw [← h2, Complex.arg_ofReal_of_neg (by norm_num)]

/-- The phase component of `[[1, 3]]` at `(0,1)`: `arg(4) = 0`. -/
theorem rawX_phase_01 : (componentFromRaw rawX .phase).entries 0 1 = 0 := by
  have h4 : ((4 : ℝ) : ℂ) = 4 := by norm_num
  simp only [componentFromRaw, pyMap, rawX_ft_01]
  rw [← h4, Complex.arg_ofReal_of_nonneg (by norm_num)]

/-- The display phase of `[[1, 3]]` at `(0,0)` normalizes `π` over the
range `[0, π]` to exactly 1. -/
theorem rawX_visual_phase_00 : (visualFromRaw rawX .phase).entries 0 0 = 1 := by
  have hrows : (componentFromRaw rawX CompKind.phase).rows = 1 := rfl
  have hcols : (componentFromRaw rawX CompKind.phase).cols = 2 := rfl
  have hidx : idxList 1 2 = [(0, 0), (0, 1)] := by rfl
  have hmn : matMin (componentFromRaw rawX .phase) = 0 := by
    rw [matMin, hrows, hcols, hidx]
    simp only [List.map_cons, List.map_nil, List.foldr_cons, List.foldr_nil,
      rawX_phase_00, rawX_phase_01]
    rw [min_eq_left Real.pi_pos.le, min_eq_right Real.pi_pos.le]
  have hmx : matMax (componentFromRaw rawX .phase) = Real.pi := by
    rw [matMax, hrows, hcols, hidx]
    simp only [List.map_cons, List.map_nil, List.foldr_cons, List.foldr_nil,
      rawX_phase_00, rawX_phase_01]
    rw [max_eq_right Real.pi_pos.le, max_self]
  rw [visualFromRaw, postVisual]
  simp [hmn, hmx, Real.pi_pos, rawX_phase_00, pyMap]
  rw [div_self Real.pi_ne_zero]
  norm_num

/-- C4, counterexample.  The claim says weights are normalized to sum to 1
over only the in-range images, so with one image and weight map
`{0: 1.0, 5: 1.0}` the phase coefficient of image 0 would be
`1.0 / 1.0 = 1` and the mixed phase would equal image 0's display phase.
The code divides by the sum over ALL entries — in-range or not — so the
coefficient is `1/2` and the mixed entry is `1/2`, not `1`. -/
theorem C4_normalization_counterexample :
    (visualFromRaw rawX .phase).entries 0 0 = 1 ∧
    (mixedComponent [(0, 1), (5, 1)] [rawX] .phase (1, 2)).entries 0 0 = 1 / 2 ∧
    ¬ ((mixedComponent [(0, 1), (5, 1)] [rawX] .phase (1, 2)).entries 0 0 =
        (1 / 1) * (visualFromRaw rawX .phase).entries 0 0) := by
  have hmix : (mixedComponent [(0, 1), (5, 1)] [rawX] .phase (1, 2)).entries 0 0 =
      1 / 2 := by
    rw [mixedComponent]
    norm_num [matAdd, matScale, pyConst, rawX_visual_phase_00]
  refine ⟨rawX_visual_phase_00, hmix, ?_⟩
  rw [hmix, rawX_visual_phase_00]
  norm_num

/-- The weight-mixing fold, pointwise: starting from `acc` it adds
`w/total · component` for exactly the in-range weight entries. -/
theorem mixFold_entries (images : List (PyArr ℝ)) (k : CompKind) (total : ℝ)
    (sources : List (ℕ × ℝ)) (acc : PyArr ℝ) (i j : ℕ) :
    (sources.foldl
      (fun acc p =>
        if p.1 < images.length then
          matAdd acc (matScale (p.2 / total) (visualFromRaw (images.getD p.1 pyZero) k))
        else acc)
      acc).entries i j
      = acc.entries i j +
        ((sources.filter fun p => p.1 < images.length).map
          (fun p => p.2 / total *
            (visualFromRaw (images.getD p.1 pyZero) k).entries i j)).sum := by
  induction sources generalizing acc with
  | nil => simp
  | cons p rest ih =>
    by_cases hp : p.1 < images.length
    · rw [List.foldl_cons, if_pos hp, ih]
      simp [matAdd, matScale, hp]
      ring
    · rw [List.foldl_cons, if_neg hp, ih]
      simp [hp]

/-- C4, amended.  In both modes each component slot with positive total
weight mixes as follows: every weight entry whose index is out of range is
silently ignored (no error), and each in-range image contributes its
display component scaled by `w / total`, where `total` is the sum of ALL
the slot's weights — ignored out-of-range entries included.  The result is
therefore a convex combination only when every weight index is in range. -/
theorem C4_amended_normalization (sources : List (ℕ × ℝ))
    (images : List (PyArr ℝ)) (k : CompKind) (shape : ℕ × ℕ)
    (h : 0 < (sources.map Prod.snd).sum) (i j : ℕ) :
    (mixedComponent sources images k shape).entries i j
      = ((sources.filter fun p => p.1 < images.length).map
          (fun p => p.2 / (sources.map Prod.snd).sum *
            (visualFromRaw (images.getD p.1 pyZero) k).entries i j)).sum := by
  rw [mixedComponent]
  simp only [if_pos h]
  rw [mixFold_entries]
  simp [pyConst]

/-- Witness for the amended C4 at a concrete input: the single in-range
weight `{0: 1.0}` over one image. -/
theorem C4_amended_normalization_witness :
    (0 : ℝ) < ([((0 : ℕ), (1 : ℝ))].map Prod.snd).sum ∧
    (mixedComponent [(0, 1)] [rawX] .phase (1, 2)).entries 0 0
      = (([((0 : ℕ), (1 : ℝ))].filter fun p => p.1 < [rawX].length).map
          (fun p => p.2 / ([((0 : ℕ), (1 : ℝ))].map Prod.snd).sum *
            (visualFromRaw ([rawX].getD p.1 pyZero) .phase).entries 0 0)).sum :=
  ⟨by norm_num,
    C4_amended_normalization [(0, 1)] [rawX] .phase (1, 2) (by norm_num) 0 0⟩

end FTMixer
